import Mathlib

/-!
Shallow embedding of the acquisition-and-dispatch pipeline of `esplog.py`
(class ESP32DataLogger): the per-channel smoothing filter (`apply_filters`),
the per-channel threshold/hysteresis state machine (`check_thresholds`),
the fan-out dispatcher (`process_data`) and one iteration of the paced
acquisition loop (`data_acquisition_loop`).

Modelling conventions:
* Python floats are modelled as `ℚ` (the pipeline only adds, divides and
  compares sample values, and every comparison made by the code is exact on
  the values involved).
* A JSON scalar found in a device frame is a `JVal`: `JVal.num q` stands for
  any value that Python `float()` / `int()` converts successfully, `JVal.str`
  for a value on which the conversion raises (`ValueError`/`TypeError`).
* A missing dictionary key is `Option.none`.
* Qt widget reads (`isChecked`, `value`, the radio button) are snapshots held
  in `ChannelConfig` / `Config`; the UI-only statements of the source (label
  updates, debug prints, plot buffers) are not modelled.
* Sink I/O (`csv_writer.writerow`, `osc_client.send_message`, the Qt signal
  emission handing data to the display) is modelled by an injected fault
  oracle `SinkCall → Bool`: `true` means that call raises.  An exception
  propagates out of `process_data` exactly as in Python (no handler inside),
  and is caught by the acquisition loop's `except` clause.
-/

namespace EspLog

/-- A JSON scalar of a device frame.  `num q` is any value `float()`/`int()`
accepts; `str` is a value the numeric conversions reject. -/
inductive JVal where
  | num (q : ℚ)
  | str
deriving DecidableEq

/-- Python `float(x)`: succeeds on numeric values, raises otherwise. -/
def JVal.toRat? : JVal → Option ℚ
  | .num q => some q
  | .str => none

/-- Python `int(x)`: truncation toward zero on numerics (Lean `Int` division
by a positive denominator truncates toward zero), raises otherwise. -/
def JVal.toInt? : JVal → Option ℤ
  | .num q => some (q.num / (q.den : ℤ))
  | .str => none

/-- One channel entry of a device frame: the values found under the keys
`raw` and `voltage` (`none` when the key is absent). -/
structure ChanEntry where
  raw : Option JVal
  voltage : Option JVal
deriving DecidableEq

/-- A device frame (`data` in the source): channels keyed by index 0..3;
an absent channel key is `none`.  The `timestamp` field is only copied into
the CSV row and is not modelled. -/
structure Frame where
  channels : Fin 4 → Option ChanEntry

/-- Stored threshold classification, the strings 'high' / 'low' / 'normal'
of `threshold_states`; the initial Python `None` is `Option.none` around
this type. -/
inductive ThreshState where
  | high
  | low
  | normal
deriving DecidableEq

/-- One value of the `filtered_data` mapping built by `apply_filters`:
keys `raw`, `voltage`, `filtered_voltage`. -/
structure FilteredEntry where
  raw : ℤ
  voltage : ℚ
  filtered_voltage : ℚ
deriving DecidableEq

/-- Per-channel configuration snapshot: `filter_enabled[i].isChecked()`,
`filter_window[i].value()` (QSpinBox range 2..50), `thresh_enabled[i].isChecked()`,
`thresh_high[i].value()`, `thresh_low[i].value()` (no ordering enforced). -/
structure ChannelConfig where
  filterEnabled : Bool
  filterWindow : ℕ
  threshEnabled : Bool
  threshHigh : ℚ
  threshLow : ℚ

/-- Dispatcher-level configuration snapshot: per-channel widget state,
`filtered_radio.isChecked()`, `logging_active and csv_writer`, and
`streaming_active`. -/
structure Config where
  chan : Fin 4 → ChannelConfig
  useFiltered : Bool
  loggingActive : Bool
  streamingActive : Bool

/-- The mutable acquisition-side state of `ESP32DataLogger` touched by the
pipeline: `filter_buffers` (one `deque(maxlen=50)` per channel, newest
last), `threshold_states`, and the three counters. -/
structure AcqState where
  filter_buffers : Fin 4 → List ℚ
  threshold_states : Fin 4 → Option ThreshState
  sample_count : ℕ
  error_count : ℕ
  csv_row_count : ℕ

/-- Python `deque(maxlen=m).append(v)`: append on the right, evict from the
left once the bound is exceeded. -/
def dequeAppend (maxlen : ℕ) (buf : List ℚ) (v : ℚ) : List ℚ :=
  let b := buf ++ [v]
  b.drop (b.length - maxlen)

/-- Python slice `l[-n:]` (for `n = 0` this is the whole list). -/
def lastSlice (n : ℕ) (l : List ℚ) : List ℚ :=
  if n = 0 then l else l.drop (l.length - n)

/-- Python `sum(l) / len(l)`. -/
def listMean (l : List ℚ) : ℚ :=
  l.sum / (l.length : ℚ)

/-- Conversion `float(channels[str(i)]['voltage'])`: `none` when the key is
absent or the conversion raises. -/
def numericVoltage (e : ChanEntry) : Option ℚ :=
  e.voltage.bind JVal.toRat?

/-- Conversion `int(channels[str(i)]['raw'])`: `none` when the key is absent
or the conversion raises. -/
def numericRaw (e : ChanEntry) : Option ℤ :=
  e.raw.bind JVal.toInt?

/-- One loop body of `apply_filters` (source lines 968-994) for a single
channel: skip absent or non-numeric channels, append the voltage to the
bounded buffer, then compute the windowed mean when the channel's filter is
enabled, the input voltage otherwise.  Returns the produced
`filtered_data` entry (if any) and the updated buffer. -/
def applyFilterChannel (c : ChannelConfig) (buf : List ℚ) (entry : Option ChanEntry) :
    Option FilteredEntry × List ℚ :=
  match entry with
  | none => (none, buf)
  | some e =>
    match numericVoltage e, numericRaw e with
    | some v, some r =>
      let buf' := dequeAppend 50 buf v
      let fv :=
        if c.filterEnabled = true ∧ 0 < buf'.length then
          listMean (lastSlice (min c.filterWindow buf'.length) buf')
        else v
      (some ⟨r, v, fv⟩, buf')
    | _, _ => (none, buf)

/-- The method `apply_filters` (source lines 963-996).  The Python loop runs
channels 0..3 in order but each iteration reads and writes only channel
`i`'s buffer, so the per-channel presentation is equivalent.  Returns the
`filtered_data` mapping and the updated buffers. -/
def apply_filters (cfg : Config) (frame : Frame) (bufs : Fin 4 → List ℚ) :
    (Fin 4 → Option FilteredEntry) × (Fin 4 → List ℚ) :=
  (fun i => (applyFilterChannel (cfg.chan i) (bufs i) (frame.channels i)).1,
   fun i => (applyFilterChannel (cfg.chan i) (bufs i) (frame.channels i)).2)

/-- Voltage used by `check_thresholds` (source line 1007): the entry's
`filtered_voltage` when the channel's filter is enabled, its `voltage`
otherwise. -/
def thVoltage (c : ChannelConfig) (e : FilteredEntry) : ℚ :=
  if c.filterEnabled = true then e.filtered_voltage else e.voltage

/-- The three-way comparison of `check_thresholds` (source lines 1015-1020):
`voltage > high_thresh` is tested first, then `voltage < low_thresh`, else
normal.  Defined for any pair of setpoints, ordered or not. -/
def classify (v H L : ℚ) : ThreshState :=
  if v > H then .high else if v < L then .low else .normal

/-- An OSC alert message sent on a threshold transition (source lines
1024-1032): path `/adc/alert/ch{i}/...` with payload `[value, bound]` for
high/low and `value` for normal. -/
inductive AlertEvent where
  | high (ch : Fin 4) (value bound : ℚ)
  | low (ch : Fin 4) (value bound : ℚ)
  | normal (ch : Fin 4) (value : ℚ)
deriving DecidableEq

/-- The alert sent when the freshly computed state differs from the stored
one (source lines 1024-1031): a high or low alert is always sent, a normal
alert only when the stored state is not Python `None`; a first transition
out of `None` into normal sends nothing. -/
def transitionEvent (i : Fin 4) (v : ℚ) (c : ChannelConfig) (st : Option ThreshState) :
    Option AlertEvent :=
  match classify v c.threshHigh c.threshLow with
  | .high => some (.high i v c.threshHigh)
  | .low => some (.low i v c.threshLow)
  | .normal => if st.isSome then some (.normal i v) else none

/-- One loop body of `check_thresholds` (source lines 1002-1034) for a single
channel, as a pure state transformer: given the channel's `filtered_data`
entry and stored state, return the new stored state and the alerts sent.
Channels absent from the mapping or with thresholds disabled are skipped.
The `except (ValueError, KeyError)` of the source cannot fire here because
every `filtered_data` entry carries all three keys. -/
def checkThresholdChannel (i : Fin 4) (c : ChannelConfig) (entry : Option FilteredEntry)
    (st : Option ThreshState) : Option ThreshState × List AlertEvent :=
  match entry with
  | none => (st, [])
  | some e =>
    if c.threshEnabled = true then
      let v := thVoltage c e
      let cur := classify v c.threshHigh c.threshLow
      if some cur = st then (st, [])
      else (some cur, (transitionEvent i v c st).toList)
    else (st, [])

/-- Driver for feeding a sequence of already-filtered values through one
channel's threshold state machine, collecting the alerts in order; each
value is presented as a `filtered_data` entry whose `voltage` and
`filtered_voltage` both hold the value. -/
def runThresholdValues (i : Fin 4) (c : ChannelConfig) (vs : List ℚ)
    (st : Option ThreshState) : Option ThreshState × List AlertEvent :=
  match vs with
  | [] => (st, [])
  | v :: rest =>
    let r := checkThresholdChannel i c (some ⟨0, v, v⟩) st
    let r2 := runThresholdValues i c rest r.1
    (r2.1, r.2 ++ r2.2)

/-- Driver for feeding a sequence of voltages through one channel's filter,
collecting the `filtered_voltage` outputs in order (raw count fixed at 0). -/
def runFilterChannel (c : ChannelConfig) (vs : List ℚ) (buf : List ℚ) :
    List ℚ × List ℚ :=
  match vs with
  | [] => ([], buf)
  | v :: rest =>
    match applyFilterChannel c buf (some ⟨some (.num 0), some (.num v)⟩) with
    | (some fe, buf') =>
      let r := runFilterChannel c rest buf'
      (fe.filtered_voltage :: r.1, r.2)
    | (none, buf') =>
      let r := runFilterChannel c rest buf'
      (r.1, r.2)

/-- One sink call attempted by `process_data`: the Qt signal handing the
sample to the display (line 917), the CSV `writerow` (line 938), and the OSC
sends (lines 953, 956 and the alert sends inside `check_thresholds`).
Payloads other than the alert content are not inspected by any claim and are
not carried. -/
inductive SinkCall where
  | displayEmit
  | logWrite
  | oscRaw (ch : Fin 4)
  | oscVoltage (ch : Fin 4)
  | oscAlert (e : AlertEvent)
deriving DecidableEq

/-- Calls addressed to the OSC telemetry publisher. -/
def SinkCall.isTelemetry : SinkCall → Bool
  | .displayEmit => false
  | .logWrite => false
  | .oscRaw _ => true
  | .oscVoltage _ => true
  | .oscAlert _ => true

/-- Execution snapshot threaded through one `process_data` call: the object
state plus the sink calls performed so far (in order). -/
structure StM where
  st : AcqState
  calls : List SinkCall

/-- Performing one sink call: when the injected fault oracle marks the call
as failing, the raised exception carries the snapshot unchanged (the call is
not performed); otherwise the call is appended to the performed list. -/
def emitCall (faults : SinkCall → Bool) (c : SinkCall) (m : StM) : Except StM StM :=
  if faults c = true then .error m
  else .ok { m with calls := m.calls ++ [c] }

/-- Success of the CSV row assembly (source lines 928-936): with the raw
output mode (`use_filtered` false) the row reads `['raw']` and `['voltage']`
of every channel present in the frame, raising `KeyError` when a key is
absent; with the filtered mode the row is read from `filtered_data` entries,
which always carry their keys.  Row contents are not modelled, only whether
assembly completes (it happens before `writerow`). -/
def rowBuildOk (useFiltered : Bool) (frame : Frame) : Bool :=
  useFiltered ||
    (List.finRange 4).all fun i =>
      match frame.channels i with
      | none => true
      | some e => e.raw.isSome && e.voltage.isSome

/-- The CSV logging block of `process_data` (source lines 924-946): when
logging is active, assemble the row (a `KeyError` there propagates), perform
the `writerow` call, and bump `csv_row_count`.  The row-counter label update
and the periodic flush are UI/file-lifecycle statements and are not
modelled. -/
def loggingRun (cfg : Config) (faults : SinkCall → Bool) (frame : Frame) (m : StM) :
    Except StM StM :=
  if cfg.loggingActive = true then
    if rowBuildOk cfg.useFiltered frame = true then do
      let m' ← emitCall faults .logWrite m
      pure { m' with st := { m'.st with csv_row_count := m'.st.csv_row_count + 1 } }
    else .error m
  else .ok m

/-- The per-channel OSC send pair of `process_data` (source lines 950-956):
presence is tested against `output_data`, which is `filtered_data` when
`use_filtered` is set and the raw `channels` mapping otherwise; in the raw
mode reading a missing `raw` or `voltage` key raises `KeyError` before the
corresponding send. -/
def oscChannelRun (faults : SinkCall → Bool) (cfg : Config) (frame : Frame)
    (fd : Fin 4 → Option FilteredEntry) (ch : Fin 4) (m : StM) : Except StM StM :=
  if cfg.useFiltered = true then
    match fd ch with
    | none => .ok m
    | some _ => do
      let m' ← emitCall faults (.oscRaw ch) m
      emitCall faults (.oscVoltage ch) m'
  else
    match frame.channels ch with
    | none => .ok m
    | some e =>
      match e.raw with
      | none => .error m
      | some _ => do
        let m' ← emitCall faults (.oscRaw ch) m
        match e.voltage with
        | none => .error m'
        | some _ => emitCall faults (.oscVoltage ch) m'

/-- One loop body of `check_thresholds` for channel `i` with live OSC
emission: the pure transformer `checkThresholdChannel` decides the new state
and the alert; when an alert exists its send is attempted first, and only on
success is `threshold_states[i]` assigned (the source assigns after the send,
so a raising send leaves the stored state untouched). -/
def checkThresholdChannelRun (faults : SinkCall → Bool) (cfg : Config)
    (fd : Fin 4 → Option FilteredEntry) (i : Fin 4) (m : StM) : Except StM StM :=
  let r := checkThresholdChannel i (cfg.chan i) (fd i) (m.st.threshold_states i)
  (r.2.foldlM (fun mm ev => emitCall faults (.oscAlert ev) mm) m).map
    fun m' => { m' with st := { m'.st with
      threshold_states := Function.update m'.st.threshold_states i r.1 } }

/-- The streaming block of `process_data` (source lines 949-959): when OSC
streaming is active, send the per-channel raw/voltage pairs for channels
0..3, then run `check_thresholds` on `filtered_data`. -/
def streamingRun (cfg : Config) (faults : SinkCall → Bool) (frame : Frame)
    (fd : Fin 4 → Option FilteredEntry) (m : StM) : Except StM StM :=
  if cfg.streamingActive = true then do
    let m' ← (List.finRange 4).foldlM
      (fun m ch => oscChannelRun faults cfg frame fd ch m) m
    (List.finRange 4).foldlM
      (fun m i => checkThresholdChannelRun faults cfg fd i m) m'
  else .ok m

/-- The body of `process_data` (source lines 911-961) under a fault oracle:
apply the filters (mutating the buffers), hand the sample to the display,
run the logging block, run the streaming block, then bump `sample_count`.
An `Except.error` is an exception propagating out of the method, carrying
the state and calls at the moment it was raised. -/
def processBody (cfg : Config) (faults : SinkCall → Bool) (frame : Frame)
    (s : AcqState) : Except StM StM := do
  let fr := apply_filters cfg frame s.filter_buffers
  let m0 : StM := ⟨{ s with filter_buffers := fr.2 }, []⟩
  let m1 ← emitCall faults .displayEmit m0
  let m2 ← loggingRun cfg faults frame m1
  let m3 ← streamingRun cfg faults frame fr.1 m2
  pure { m3 with st := { m3.st with sample_count := m3.st.sample_count + 1 } }

/-- Result of one `process_data` call: the state after the call, the sink
calls performed, and whether an exception escaped (to be caught by the
acquisition loop). -/
structure ProcResult where
  st : AcqState
  calls : List SinkCall
  raised : Bool

/-- The method `process_data` (source lines 911-961). -/
def process_data (cfg : Config) (faults : SinkCall → Bool) (frame : Frame)
    (s : AcqState) : ProcResult :=
  match processBody cfg faults frame s with
  | .ok m => ⟨m.st, m.calls, false⟩
  | .error m => ⟨m.st, m.calls, true⟩

/-- Feeding a list of frames through `process_data`, with a per-sample fault
oracle. -/
def processSamples (cfg : Config) (faults : ℕ → SinkCall → Bool)
    (frames : List Frame) (s : AcqState) : AcqState :=
  match frames with
  | [] => s
  | f :: rest =>
    processSamples cfg (fun n => faults (n + 1)) rest
      (process_data cfg (faults 0) f s).st

/-- State of the WiFi acquisition loop (source lines 809-832): the pacing
deadline `next_sample_time`, the object state, and the `running` flag that
only the UI thread's stop request clears. -/
structure LoopState where
  next_sample_time : ℚ
  acq : AcqState
  running : Bool

/-- What one loop iteration did: slept the remaining delta without fetching,
or performed a fetch attempt. -/
inductive IterOutcome where
  | slept (delta : ℚ)
  | fetched
deriving DecidableEq

/-- One iteration of the WiFi acquisition loop body (source lines 811-832)
at observed time `now`: sleep and retry when the deadline is not reached;
otherwise attempt the fetch (`fetch = none` models a raising
`requests.get`/JSON parse), process the sample (an escaping exception joins
the `except` branch and bumps `error_count`), advance the deadline by one
interval and resynchronize it when it is still strictly in the past. -/
def data_acquisition_step (interval : ℚ) (cfg : Config) (faults : SinkCall → Bool)
    (now : ℚ) (fetch : Option Frame) (st : LoopState) : LoopState × IterOutcome :=
  if now < st.next_sample_time then
    (st, .slept (st.next_sample_time - now))
  else
    let acq' :=
      match fetch with
      | none => { st.acq with error_count := st.acq.error_count + 1 }
      | some frame =>
        let r := process_data cfg faults frame st.acq
        if r.raised = true then { r.st with error_count := r.st.error_count + 1 }
        else r.st
    let nt := st.next_sample_time + interval
    let nt' := if nt < now then now + interval else nt
    ({ st with next_sample_time := nt', acq := acq' }, .fetched)

/-- Channel configuration with the default setpoints H = 1.0, L = 0.1 and
thresholds enabled, filter disabled. -/
def threshDefaultCfg : ChannelConfig :=
  ⟨false, 5, true, 1, 1 / 10⟩

/-- Channel configuration with thresholds disabled and filter disabled. -/
def plainChanCfg : ChannelConfig :=
  ⟨false, 5, false, 1, 1 / 10⟩

/-- Filter-enabled channel configuration with window 5 (thresholds off). -/
def filterWin5Cfg : ChannelConfig :=
  ⟨true, 5, false, 1, 1 / 10⟩

/-- A frame whose channel 0 reads raw 100, voltage 2.0 V; other channels
absent. -/
def frameCh0 : Frame :=
  ⟨fun i => if i = 0 then some ⟨some (.num 100), some (.num 2)⟩ else none⟩

/-- The acquisition state at thread start: empty buffers, all stored
threshold states `None`, zeroed counters. -/
def initialState : AcqState :=
  ⟨fun _ => [], fun _ => none, 0, 0, 0⟩

/-- Fault oracle injecting no failures. -/
def noFaults : SinkCall → Bool := fun _ => false

/-- Fault oracle failing exactly the CSV `writerow` call. -/
def logWriteFails : SinkCall → Bool
  | .logWrite => true
  | _ => false

/-- Fault oracle failing every telemetry (OSC) call and nothing else. -/
def telemetryFaults : SinkCall → Bool :=
  SinkCall.isTelemetry

/-- Dispatcher configuration with thresholds enabled on every channel
(H = 1, L = 0.1), raw output mode, logging off, streaming on. -/
def cfgStreamOn : Config :=
  ⟨fun _ => threshDefaultCfg, false, false, true⟩

/-- Same as `cfgStreamOn` but with OSC streaming off. -/
def cfgStreamOff : Config :=
  ⟨fun _ => threshDefaultCfg, false, false, false⟩

/-- Dispatcher configuration with logging and streaming both active, raw
output mode, thresholds disabled. -/
def cfgLogStream : Config :=
  ⟨fun _ => plainChanCfg, false, true, true⟩

/-- C8: for every value and every pair of setpoints, with no ordering assumed
between them, the threshold classification of `check_thresholds` is the total
function mapping to High when `v > H`, else to Low when `v < L`, else to
Normal — the `v > H` comparison is decided first, so it wins as the tie-break
when the setpoints are inverted and both comparisons hold. -/
theorem c8_classification_total_and_ordered (v H L : ℚ) :
    (H < v → classify v H L = ThreshState.high) ∧
    (¬ H < v → v < L → classify v H L = ThreshState.low) ∧
    (¬ H < v → ¬ v < L → classify v H L = ThreshState.normal) ∧
    (H < v → v < L → classify v H L = ThreshState.high) := by
  unfold classify
  refine ⟨fun h => by simp [h], fun h h2 => by simp [h, h2], fun h h2 => by simp [h, h2],
    fun h _ => by simp [h]⟩

/-- C8 witness: with inverted setpoints H = 1, L = 3 the value 2 satisfies
both comparisons and is classified High because `v > H` is checked first. -/
theorem c8_witness : classify 2 1 3 = ThreshState.high :=
  (c8_classification_total_and_ordered 2 1 3).2.2.2 (by norm_num) (by norm_num)

/-- C1 counterexample: with thresholds enabled (H = 1, L = 0.1) and stored
state `None` (Unset), the very first classification of the value 2 V is High
and an event IS emitted — refuting the claim that the first classification
after startup emits no event regardless of its value. -/
theorem c1_counterexample :
    (checkThresholdChannel 0 threshDefaultCfg (some ⟨0, 2, 2⟩) none).2 =
      [AlertEvent.high 0 2 1] ∧
    (checkThresholdChannel 0 threshDefaultCfg (some ⟨0, 2, 2⟩) none).2 ≠ [] := by
  constructor <;> decide

/-- C1 (amended): one classification step of the threshold engine stores the
computed state unconditionally and emits: zero events when the computed
state equals the stored one, zero events when the stored state is Unset and
the computed state is Normal (only that first transition is silent), and
exactly one event otherwise — in particular a first classification of High
or Low from Unset emits an event, and any run of consecutive identical
classifications emits nothing after the first. -/
theorem c1_threshold_event_discipline :
    (∀ (i : Fin 4) (c : ChannelConfig) (e : FilteredEntry) (st : Option ThreshState),
      c.threshEnabled = true →
      (checkThresholdChannel i c (some e) st).1 =
        some (classify (thVoltage c e) c.threshHigh c.threshLow) ∧
      (checkThresholdChannel i c (some e) st).2.length =
        (if st = some (classify (thVoltage c e) c.threshHigh c.threshLow) then 0
         else if st = none ∧ classify (thVoltage c e) c.threshHigh c.threshLow =
            ThreshState.normal then 0
         else 1)) ∧
    (∀ (i : Fin 4) (c : ChannelConfig) (vs : List ℚ) (s0 : ThreshState),
      c.threshEnabled = true →
      (∀ v ∈ vs, classify v c.threshHigh c.threshLow = s0) →
      (runThresholdValues i c vs (some s0)).1 = some s0 ∧
      (runThresholdValues i c vs (some s0)).2 = []) := by
  constructor
  · intro i c e st hc
    unfold checkThresholdChannel
    simp only [hc, if_true]
    by_cases hst : some (classify (thVoltage c e) c.threshHigh c.threshLow) = st
    · subst hst
      simp
    · have hst' : ¬ st = some (classify (thVoltage c e) c.threshHigh c.threshLow) :=
        fun h => hst h.symm
      simp only [hst, if_neg, hst', if_false, true_and]
      unfold transitionEvent
      rcases hcl : classify (thVoltage c e) c.threshHigh c.threshLow with _ | _ | _
      · simp
      · simp
      · rcases st with _ | s
        · simp [hcl]
        · simp
  · intro i c vs s0 hc hall
    induction vs with
    | nil => simp [runThresholdValues]
    | cons v rest ih =>
      have hv : classify v c.threshHigh c.threshLow = s0 := hall v (by simp)
      have hstep : checkThresholdChannel i c (some ⟨0, v, v⟩) (some s0) = (some s0, []) := by
        unfold checkThresholdChannel thVoltage
        simp [hc, ite_self, hv]
      have hrest := ih (fun w hw => hall w (by simp [hw]))
      simp [runThresholdValues, hstep, hrest.1, hrest.2]

/-- C1 witness: a repeated Normal classification (value 0.5 with H = 1,
L = 0.1) from stored state Normal stores Normal again and emits nothing, and
a run of three such values emits no event at all. -/
theorem c1_witness :
    ((checkThresholdChannel 0 threshDefaultCfg (some ⟨0, 1/2, 1/2⟩)
        (some ThreshState.normal)).1 =
      some (classify (thVoltage threshDefaultCfg ⟨0, 1/2, 1/2⟩)
        threshDefaultCfg.threshHigh threshDefaultCfg.threshLow) ∧
     (checkThresholdChannel 0 threshDefaultCfg (some ⟨0, 1/2, 1/2⟩)
        (some ThreshState.normal)).2.length =
      (if (some ThreshState.normal : Option ThreshState) =
          some (classify (thVoltage threshDefaultCfg ⟨0, 1/2, 1/2⟩)
            threshDefaultCfg.threshHigh threshDefaultCfg.threshLow) then 0
       else if (some ThreshState.normal : Option ThreshState) = none ∧
          classify (thVoltage threshDefaultCfg ⟨0, 1/2, 1/2⟩)
            threshDefaultCfg.threshHigh threshDefaultCfg.threshLow =
            ThreshState.normal then 0
       else 1)) ∧
    (runThresholdValues 0 threshDefaultCfg [1/2, 1/2, 1/2]
        (some ThreshState.normal)).1 = some ThreshState.normal ∧
    (runThresholdValues 0 threshDefaultCfg [1/2, 1/2, 1/2]
        (some ThreshState.normal)).2 = [] :=
  ⟨c1_threshold_event_discipline.1 0 threshDefaultCfg ⟨0, 1/2, 1/2⟩
      (some ThreshState.normal) rfl,
   c1_threshold_event_discipline.2 0 threshDefaultCfg [1/2, 1/2, 1/2]
      ThreshState.normal rfl (by
        intro v hv
        simp at hv
        subst hv
        norm_num [threshDefaultCfg, classify])⟩

/-- C3 counterexample: with H = 1.0, L = 0.1 and stored state Unset, feeding
[0.05, 0.5, 0.95] emits TWO events, not one — the first classification Low
at 0.05 is emitted (only a first Normal is silent), refuting the claim of
exactly one event in total. -/
theorem c3_counterexample :
    (runThresholdValues 0 threshDefaultCfg [1/20, 1/2, 19/20] none).2.length = 2 ∧
    (runThresholdValues 0 threshDefaultCfg [1/20, 1/2, 19/20] none).2.length ≠ 1 := by
  have h : (runThresholdValues 0 threshDefaultCfg [1/20, 1/2, 19/20] none).2 =
      [AlertEvent.low 0 (1/20) (1/10), AlertEvent.normal 0 (1/2)] := by
    norm_num [runThresholdValues, checkThresholdChannel, classify, thVoltage,
      transitionEvent, threshDefaultCfg]
    simp
  rw [h]
  refine ⟨rfl, by norm_num⟩

/-- C3 (amended): with a threshold-enabled channel at H = 1.0, L = 0.1,
feeding [0.05, 0.5, 0.95] from the initial Unset state emits exactly two
events: a Low event at 0.05 (the first classification is emitted because it
is not Normal), a Normal event at 0.5 for the Low-to-Normal change, and
nothing at 0.95 where Normal repeats; the final stored state is Normal. -/
theorem c3_hysteresis_sequence :
    (runThresholdValues 0 threshDefaultCfg [1/20, 1/2, 19/20] none).2 =
      [AlertEvent.low 0 (1/20) (1/10), AlertEvent.normal 0 (1/2)] ∧
    (runThresholdValues 0 threshDefaultCfg [1/20, 1/2, 19/20] none).1 =
      some ThreshState.normal := by
  constructor <;>
    · norm_num [runThresholdValues, checkThresholdChannel, classify, thVoltage,
        transitionEvent, threshDefaultCfg]
      simp

theorem dequeAppend_length (maxlen : ℕ) (buf : List ℚ) (v : ℚ) :
    (dequeAppend maxlen buf v).length = (buf.length + 1) - (buf.length + 1 - maxlen) := by
  simp [dequeAppend]

theorem dequeAppend_length_pos (buf : List ℚ) (v : ℚ) :
    0 < (dequeAppend 50 buf v).length := by
  rw [dequeAppend_length]
  omega

theorem applyFilterChannel_numeric (c : ChannelConfig) (buf : List ℚ) (e : ChanEntry)
    (v : ℚ) (r : ℤ) (hv : numericVoltage e = some v) (hr : numericRaw e = some r) :
    applyFilterChannel c buf (some e) =
      (some ⟨r, v,
        if c.filterEnabled = true ∧ 0 < (dequeAppend 50 buf v).length then
          listMean (lastSlice (min c.filterWindow (dequeAppend 50 buf v).length)
            (dequeAppend 50 buf v))
        else v⟩,
       dequeAppend 50 buf v) := by
  simp only [applyFilterChannel, hv, hr]

theorem applyFilterChannel_nonnumeric (c : ChannelConfig) (buf : List ℚ) (e : ChanEntry)
    (h : numericVoltage e = none ∨ numericRaw e = none) :
    applyFilterChannel c buf (some e) = (none, buf) := by
  unfold applyFilterChannel
  rcases hv : numericVoltage e with _ | v <;> rcases hr : numericRaw e with _ | r <;>
    simp_all

/-- C6: for a filter-enabled channel each update returns the arithmetic mean
of the last `min(window, historyLength)` stored voltages, where
`historyLength` counts the buffer after the new voltage is appended — output
is produced even before the window is full; in particular with window 5 and
voltages [1,2,3,4,5,6] the sixth filtered output is mean(2,3,4,5,6) = 4.0,
not the mean 3.5 of all six. -/
theorem c6_filter_windowed_mean :
    (∀ (c : ChannelConfig) (buf : List ℚ) (e : ChanEntry) (v : ℚ) (r : ℤ),
      c.filterEnabled = true → numericVoltage e = some v → numericRaw e = some r →
      applyFilterChannel c buf (some e) =
        (some ⟨r, v, listMean (lastSlice (min c.filterWindow (dequeAppend 50 buf v).length)
            (dequeAppend 50 buf v))⟩,
         dequeAppend 50 buf v) ∧
      (1 ≤ c.filterWindow →
        (lastSlice (min c.filterWindow (dequeAppend 50 buf v).length)
            (dequeAppend 50 buf v)).length =
          min c.filterWindow (dequeAppend 50 buf v).length)) ∧
    ((runFilterChannel filterWin5Cfg [1, 2, 3, 4, 5, 6] []).1.getLast? = some 4 ∧
     (4 : ℚ) ≠ (1 + 2 + 3 + 4 + 5 + 6) / 6) := by
  constructor
  · intro c buf e v r hc hv hr
    constructor
    · rw [applyFilterChannel_numeric c buf e v r hv hr]
      simp [hc, dequeAppend_length_pos]
    · intro hw
      have hpos := dequeAppend_length_pos buf v
      unfold lastSlice
      have hmin : ¬ min c.filterWindow (dequeAppend 50 buf v).length = 0 := by omega
      rw [if_neg hmin]
      simp
      omega
  · constructor
    · norm_num [runFilterChannel, applyFilterChannel, filterWin5Cfg, numericVoltage,
        numericRaw, JVal.toRat?, JVal.toInt?, dequeAppend, lastSlice, listMean]
    · norm_num

/-- C6 witness: the first update of an empty buffer on a window-5 channel
with voltage 1 already produces the mean of the single stored sample. -/
theorem c6_witness :
    applyFilterChannel filterWin5Cfg [] (some ⟨some (JVal.num 0), some (JVal.num 1)⟩) =
      (some ⟨0, 1, listMean (lastSlice (min filterWin5Cfg.filterWindow
          (dequeAppend 50 [] 1).length) (dequeAppend 50 [] 1))⟩,
       dequeAppend 50 [] 1) ∧
    (lastSlice (min filterWin5Cfg.filterWindow (dequeAppend 50 [] 1).length)
        (dequeAppend 50 [] 1)).length =
      min filterWin5Cfg.filterWindow (dequeAppend 50 [] 1).length := by
  have h := c6_filter_windowed_mean.1 filterWin5Cfg [] ⟨some (JVal.num 0), some (JVal.num 1)⟩
    1 0 rfl (by simp [numericVoltage, JVal.toRat?])
    (by simp [numericRaw, JVal.toInt?])
  exact ⟨h.1, h.2 (by norm_num [filterWin5Cfg])⟩

/-- C7: for a channel with filtering disabled each update returns the input
voltage unchanged as the filtered voltage, and the input voltage is still
appended to the channel's bounded history (growing it by one while under the
bound), so later enabling of the filter does not start from an empty
buffer. -/
theorem c7_filter_disabled_identity :
    ∀ (c : ChannelConfig) (buf : List ℚ) (e : ChanEntry) (v : ℚ) (r : ℤ),
      c.filterEnabled = false → numericVoltage e = some v → numericRaw e = some r →
      applyFilterChannel c buf (some e) = (some ⟨r, v, v⟩, dequeAppend 50 buf v) ∧
      (buf.length < 50 → dequeAppend 50 buf v = buf ++ [v]) := by
  intro c buf e v r hc hv hr
  constructor
  · rw [applyFilterChannel_numeric c buf e v r hv hr]
    simp [hc]
  · intro hlen
    have h0 : buf.length + 1 - 50 = 0 := by omega
    simp [dequeAppend, h0]

/-- C7 witness: with filtering disabled the update for voltage 2 on buffer
[1] returns 2 unchanged and the buffer grows to [1, 2]. -/
theorem c7_witness :
    applyFilterChannel plainChanCfg [1] (some ⟨some (JVal.num 3), some (JVal.num 2)⟩) =
      (some ⟨3, 2, 2⟩, dequeAppend 50 [1] 2) ∧
    dequeAppend 50 [1] 2 = [1] ++ [2] := by
  have h := c7_filter_disabled_identity plainChanCfg [1] ⟨some (JVal.num 3), some (JVal.num 2)⟩
    2 3 rfl (by simp [numericVoltage, JVal.toRat?])
    (by simp [numericRaw, JVal.toInt?])
  exact ⟨h.1, h.2 (by norm_num)⟩

/-- C10: when a channel key is present in a frame but its raw or voltage
value cannot be converted to a number (or the key is missing), the filter
pass omits that channel from the cycle's output mapping and leaves its
history buffer unchanged — the non-numeric reading is never appended — while
every other channel of the same frame is processed exactly as its own entry
dictates. -/
theorem c10_nonnumeric_channel_skipped :
    ∀ (cfg : Config) (frame : Frame) (bufs : Fin 4 → List ℚ) (i : Fin 4) (e : ChanEntry),
      frame.channels i = some e →
      (numericVoltage e = none ∨ numericRaw e = none) →
      (apply_filters cfg frame bufs).1 i = none ∧
      (apply_filters cfg frame bufs).2 i = bufs i ∧
      (∀ j : Fin 4, j ≠ i →
        (apply_filters cfg frame bufs).1 j =
          (applyFilterChannel (cfg.chan j) (bufs j) (frame.channels j)).1 ∧
        (apply_filters cfg frame bufs).2 j =
          (applyFilterChannel (cfg.chan j) (bufs j) (frame.channels j)).2) := by
  intro cfg frame bufs i e he hnn
  have hskip := applyFilterChannel_nonnumeric (cfg.chan i) (bufs i) e hnn
  refine ⟨?_, ?_, fun j _ => ⟨rfl, rfl⟩⟩
  · show (applyFilterChannel (cfg.chan i) (bufs i) (frame.channels i)).1 = none
    rw [he, hskip]
  · show (applyFilterChannel (cfg.chan i) (bufs i) (frame.channels i)).2 = bufs i
    rw [he, hskip]

/-- C10 witness: a frame whose channel 0 carries a non-numeric raw value is
omitted from the output with its buffer untouched, while channel 1 with
numeric values is processed normally. -/
theorem c10_witness :
    (apply_filters cfgStreamOn
        ⟨fun i => if i = 0 then some ⟨some JVal.str, some (JVal.num 2)⟩
          else if i = 1 then some ⟨some (JVal.num 5), some (JVal.num 1)⟩ else none⟩
        (fun _ => [])).1 0 = none ∧
    (apply_filters cfgStreamOn
        ⟨fun i => if i = 0 then some ⟨some JVal.str, some (JVal.num 2)⟩
          else if i = 1 then some ⟨some (JVal.num 5), some (JVal.num 1)⟩ else none⟩
        (fun _ => [])).2 0 = (fun _ : Fin 4 => ([] : List ℚ)) 0 := by
  have h := c10_nonnumeric_channel_skipped cfgStreamOn
    ⟨fun i => if i = 0 then some ⟨some JVal.str, some (JVal.num 2)⟩
      else if i = 1 then some ⟨some (JVal.num 5), some (JVal.num 1)⟩ else none⟩
    (fun _ => []) 0 ⟨some JVal.str, some (JVal.num 2)⟩ rfl
    (Or.inr rfl)
  exact ⟨h.1, h.2.1⟩

theorem bind_outcome {g : Except StM StM} {h : StM → Except StM StM} {m' : StM}
    (H : g >>= h = .ok m' ∨ g >>= h = .error m') :
    g = .error m' ∨ ∃ m1, g = .ok m1 ∧ (h m1 = .ok m' ∨ h m1 = .error m') := by
  cases g with
  | error e =>
    left
    rcases H with H | H <;> simp [Bind.bind, Except.bind] at H
    rw [H]
  | ok a =>
    right
    exact ⟨a, rfl, by rcases H with H | H <;> simp [Bind.bind, Except.bind] at H <;> simp [H]⟩

theorem map_outcome {f : StM → StM} {g : Except StM StM} {m' : StM}
    (H : g.map f = .ok m' ∨ g.map f = .error m') :
    (∃ a, g = .ok a ∧ m' = f a) ∨ g = .error m' := by
  cases g with
  | error e =>
    right
    rcases H with H | H <;> simp [Except.map] at H
    rw [H]
  | ok a =>
    left
    rcases H with H | H <;> simp [Except.map] at H
    exact ⟨a, rfl, H.symm⟩

theorem emitCall_ok {faults : SinkCall → Bool} {c : SinkCall} (m : StM)
    (h : faults c = false) :
    emitCall faults c m = .ok ⟨m.st, m.calls ++ [c]⟩ := by
  simp [emitCall, h]

theorem emitCall_fail {faults : SinkCall → Bool} {c : SinkCall} (m : StM)
    (h : faults c = true) :
    emitCall faults c m = .error m := by
  simp [emitCall, h]

theorem emitCall_outcome {faults : SinkCall → Bool} {c : SinkCall} {m m' : StM}
    (H : emitCall faults c m = .ok m' ∨ emitCall faults c m = .error m') :
    m'.st = m.st ∧ ∃ t, m'.calls = m.calls ++ t ∧ ∀ x ∈ t, x = c := by
  rcases H with H | H <;> unfold emitCall at H <;> split at H
  · cases H
  · injection H with h
    rw [← h]
    exact ⟨rfl, [c], rfl, by simp⟩
  · injection H with h
    rw [← h]
    exact ⟨rfl, [], by simp, by simp⟩
  · cases H

/-- Invariant of the streaming block: the counters and buffers of the state
are untouched and only telemetry calls are appended. -/
def StreamRel (a b : StM) : Prop :=
  b.st.csv_row_count = a.st.csv_row_count ∧
  b.st.filter_buffers = a.st.filter_buffers ∧
  b.st.sample_count = a.st.sample_count ∧
  b.st.error_count = a.st.error_count ∧
  ∃ t, b.calls = a.calls ++ t ∧ ∀ x ∈ t, x.isTelemetry = true

theorem StreamRel.refl (m : StM) : StreamRel m m :=
  ⟨Eq.refl _, Eq.refl _, Eq.refl _, Eq.refl _, [], by simp, by simp⟩

theorem StreamRel.trans {a b c : StM} (h1 : StreamRel a b) (h2 : StreamRel b c) :
    StreamRel a c := by
  obtain ⟨e1, e2, e3, e4, t1, ht1, hx1⟩ := h1
  obtain ⟨f1, f2, f3, f4, t2, ht2, hx2⟩ := h2
  refine ⟨by rw [f1, e1], by rw [f2, e2], by rw [f3, e3], by rw [f4, e4],
    t1 ++ t2, by rw [ht2, ht1, List.append_assoc], ?_⟩
  intro x hx
  rcases List.mem_append.1 hx with h | h
  · exact hx1 x h
  · exact hx2 x h

theorem emitCall_streamRel {faults : SinkCall → Bool} {c : SinkCall} {m m' : StM}
    (hc : c.isTelemetry = true)
    (H : emitCall faults c m = .ok m' ∨ emitCall faults c m = .error m') :
    StreamRel m m' := by
  obtain ⟨hst, t, ht, hx⟩ := emitCall_outcome H
  exact ⟨by rw [hst], by rw [hst], by rw [hst], by rw [hst], t, ht,
    fun x hxt => by rw [hx x hxt]; exact hc⟩

theorem stuck_ok_outcome {m m' : StM}
    (H : (Except.ok m : Except StM StM) = .ok m' ∨
      (Except.ok m : Except StM StM) = .error m') : m' = m := by
  rcases H with H | H
  · injection H with h
    exact h.symm
  · cases H

theorem stuck_error_outcome {m m' : StM}
    (H : (Except.error m : Except StM StM) = .ok m' ∨
      (Except.error m : Except StM StM) = .error m') : m' = m := by
  rcases H with H | H
  · cases H
  · injection H with h
    exact h.symm

theorem oscChannelRun_streamRel {faults : SinkCall → Bool} {cfg : Config} {frame : Frame}
    {fd : Fin 4 → Option FilteredEntry} {ch : Fin 4} {m m' : StM}
    (H : oscChannelRun faults cfg frame fd ch m = .ok m' ∨
      oscChannelRun faults cfg frame fd ch m = .error m') :
    StreamRel m m' := by
  unfold oscChannelRun at H
  split at H
  · rcases hfd : fd ch with _ | e <;> rw [hfd] at H
    · rw [stuck_ok_outcome H]
      exact StreamRel.refl m
    · rcases bind_outcome H with H1 | ⟨m1, hm1, H2⟩
      · exact emitCall_streamRel (by simp [SinkCall.isTelemetry]) (Or.inr H1)
      · exact (emitCall_streamRel (by simp [SinkCall.isTelemetry]) (Or.inl hm1)).trans
          (emitCall_streamRel (by simp [SinkCall.isTelemetry]) H2)
  · rcases hfr : frame.channels ch with _ | e <;> rw [hfr] at H
    · rw [stuck_ok_outcome H]
      exact StreamRel.refl m
    · obtain ⟨eraw, evolt⟩ := e
      rcases eraw with _ | rv

      · rw [stuck_error_outcome H]
        exact StreamRel.refl m
      · rcases bind_outcome H with H1 | ⟨m1, hm1, H2⟩
        · exact emitCall_streamRel (by simp [SinkCall.isTelemetry]) (Or.inr H1)
        · refine (emitCall_streamRel (by simp [SinkCall.isTelemetry]) (Or.inl hm1)).trans ?_
          rcases evolt with _ | vv
          · rw [stuck_error_outcome H2]
            exact StreamRel.refl m1
          · exact emitCall_streamRel (by simp [SinkCall.isTelemetry]) H2

theorem checkThresholdChannel_events (i : Fin 4) (c : ChannelConfig)
    (entry : Option FilteredEntry) (st : Option ThreshState) :
    (checkThresholdChannel i c entry st).2 = [] ∨
    ∃ ev, (checkThresholdChannel i c entry st).2 = [ev] := by
  rcases entry with _ | e
  · left
    rfl
  · unfold checkThresholdChannel
    by_cases hc : c.threshEnabled = true
    · simp only [hc, if_true]
      by_cases hst : some (classify (thVoltage c e) c.threshHigh c.threshLow) = st
      · rw [if_pos hst]
        left
        rfl
      · rw [if_neg hst]
        rcases hte : transitionEvent i (thVoltage c e) c st with _ | ev
        · left
          simp [hte]
        · right
          exact ⟨ev, by simp [hte]⟩
    · simp only [hc, if_false]
      left
      rfl

theorem foldlM_streamRel {α : Type} {g : StM → α → Except StM StM}
    (hg : ∀ m x m', (g m x = .ok m' ∨ g m x = .error m') → StreamRel m m') :
    ∀ (l : List α) (m m'),
      (List.foldlM g m l = .ok m' ∨ List.foldlM g m l = .error m') → StreamRel m m' := by
  intro l
  induction l with
  | nil =>
    intro m m' H
    rw [List.foldlM_nil] at H
    rw [stuck_ok_outcome H]
    exact StreamRel.refl m
  | cons x rest ih =>
    intro m m' H
    rw [List.foldlM_cons] at H
    rcases bind_outcome H with H1 | ⟨m1, hm1, H2⟩
    · exact hg m x m' (Or.inr H1)
    · exact (hg m x m1 (Or.inl hm1)).trans (ih m1 m' H2)

theorem checkThresholdChannelRun_streamRel {faults : SinkCall → Bool} {cfg : Config}
    {fd : Fin 4 → Option FilteredEntry} {i : Fin 4} {m m' : StM}
    (H : checkThresholdChannelRun faults cfg fd i m = .ok m' ∨
      checkThresholdChannelRun faults cfg fd i m = .error m') :
    StreamRel m m' := by
  simp only [checkThresholdChannelRun] at H
  rcases map_outcome H with ⟨a, ha, hm'⟩ | He
  · have hfold := foldlM_streamRel
      (fun m ev m' h => emitCall_streamRel (by simp [SinkCall.isTelemetry]) h)
      _ m a (Or.inl ha)
    rw [hm']
    exact hfold.trans ⟨rfl, rfl, rfl, rfl, [], by simp, by simp⟩
  · exact foldlM_streamRel
      (fun m ev m' h => emitCall_streamRel (by simp [SinkCall.isTelemetry]) h)
      _ m m' (Or.inr He)

theorem streamingRun_streamRel {cfg : Config} {faults : SinkCall → Bool} {frame : Frame}
    {fd : Fin 4 → Option FilteredEntry} {m m' : StM}
    (H : streamingRun cfg faults frame fd m = .ok m' ∨
      streamingRun cfg faults frame fd m = .error m') :
    StreamRel m m' := by
  unfold streamingRun at H
  split at H
  · rcases bind_outcome H with H1 | ⟨m1, hm1, H2⟩
    · exact foldlM_streamRel (fun m x m' h => oscChannelRun_streamRel h) _ m m' (Or.inr H1)
    · exact (foldlM_streamRel (fun m x m' h => oscChannelRun_streamRel h) _ m m1
        (Or.inl hm1)).trans
        (foldlM_streamRel (fun m x m' h => checkThresholdChannelRun_streamRel h) _ m1 m' H2)
  · rw [stuck_ok_outcome H]
    exact StreamRel.refl m

theorem loggingRun_off {cfg : Config} {faults : SinkCall → Bool} {frame : Frame}
    (m : StM) (h : cfg.loggingActive = false) :
    loggingRun cfg faults frame m = .ok m := by
  simp [loggingRun, h]

theorem loggingRun_ok {cfg : Config} {faults : SinkCall → Bool} {frame : Frame}
    (m : StM) (hl : cfg.loggingActive = true)
    (hrow : rowBuildOk cfg.useFiltered frame = true)
    (hw : faults SinkCall.logWrite = false) :
    loggingRun cfg faults frame m =
      .ok ⟨{ m.st with csv_row_count := m.st.csv_row_count + 1 },
           m.calls ++ [SinkCall.logWrite]⟩ := by
  unfold loggingRun
  rw [if_pos hl, if_pos hrow, emitCall_ok m hw]
  rfl

theorem loggingRun_logfault {cfg : Config} {faults : SinkCall → Bool} {frame : Frame}
    (m : StM) (hl : cfg.loggingActive = true) (hw : faults SinkCall.logWrite = true) :
    loggingRun cfg faults frame m = .error m := by
  unfold loggingRun
  rw [if_pos hl]
  by_cases hrow : rowBuildOk cfg.useFiltered frame = true
  · rw [if_pos hrow, emitCall_fail m hw]
    rfl
  · rw [if_neg hrow]

theorem loggingRun_outcome {cfg : Config} {faults : SinkCall → Bool} {frame : Frame}
    {m m' : StM}
    (H : loggingRun cfg faults frame m = .ok m' ∨ loggingRun cfg faults frame m = .error m') :
    m'.st.threshold_states = m.st.threshold_states ∧
    m'.st.filter_buffers = m.st.filter_buffers ∧
    m'.st.sample_count = m.st.sample_count ∧
    m'.st.error_count = m.st.error_count := by
  unfold loggingRun at H
  split at H
  · split at H
    · rcases bind_outcome H with H1 | ⟨m1, hm1, H2⟩
      · have h := (emitCall_outcome (Or.inr H1)).1
        rw [h]
        exact ⟨rfl, rfl, rfl, rfl⟩
      · have h1 := (emitCall_outcome (Or.inl hm1)).1
        have h2 := stuck_ok_outcome H2
        rw [h2]
        simp [h1]
    · rw [stuck_error_outcome H]
      exact ⟨rfl, rfl, rfl, rfl⟩
  · rw [stuck_ok_outcome H]
    exact ⟨rfl, rfl, rfl, rfl⟩

theorem streamingRun_off {cfg : Config} {faults : SinkCall → Bool} {frame : Frame}
    {fd : Fin 4 → Option FilteredEntry} (m : StM) (h : cfg.streamingActive = false) :
    streamingRun cfg faults frame fd m = .ok m := by
  simp [streamingRun, h]

theorem processBody_outcome {cfg : Config} {faults : SinkCall → Bool} {frame : Frame}
    {s : AcqState} {m' : StM}
    (H : processBody cfg faults frame s = .ok m' ∨
      processBody cfg faults frame s = .error m') :
    (emitCall faults SinkCall.displayEmit
        ⟨{ s with filter_buffers := (apply_filters cfg frame s.filter_buffers).2 }, []⟩
        = .error m') ∨
    ∃ m1, emitCall faults SinkCall.displayEmit
        ⟨{ s with filter_buffers := (apply_filters cfg frame s.filter_buffers).2 }, []⟩
        = .ok m1 ∧
      (loggingRun cfg faults frame m1 = .error m' ∨
       ∃ m2, loggingRun cfg faults frame m1 = .ok m2 ∧
         (streamingRun cfg faults frame (apply_filters cfg frame s.filter_buffers).1 m2
            = .error m' ∨
          ∃ m3, streamingRun cfg faults frame (apply_filters cfg frame s.filter_buffers).1 m2
              = .ok m3 ∧
            m' = { m3 with st :=
              { m3.st with sample_count := m3.st.sample_count + 1 } })) := by
  unfold processBody at H
  rcases bind_outcome H with H1 | ⟨m1, hm1, H2⟩
  · exact Or.inl H1
  · refine Or.inr ⟨m1, hm1, ?_⟩
    rcases bind_outcome H2 with H2e | ⟨m2, hm2, H3⟩
    · exact Or.inl H2e
    · refine Or.inr ⟨m2, hm2, ?_⟩
      rcases bind_outcome H3 with H3e | ⟨m3, hm3, H4⟩
      · exact Or.inl H3e
      · exact Or.inr ⟨m3, hm3, stuck_ok_outcome H4⟩

theorem process_data_outcome (cfg : Config) (faults : SinkCall → Bool) (frame : Frame)
    (s : AcqState) :
    ∃ m', (processBody cfg faults frame s = .ok m' ∨
      processBody cfg faults frame s = .error m') ∧
      (process_data cfg faults frame s).st = m'.st ∧
      (process_data cfg faults frame s).calls = m'.calls := by
  unfold process_data
  rcases hpb : processBody cfg faults frame s with m | m
  · exact ⟨m, Or.inr rfl, rfl, rfl⟩
  · exact ⟨m, Or.inl rfl, rfl, rfl⟩

theorem rowBuildOk_keys {useF : Bool} {frame : Frame}
    (h : rowBuildOk useF frame = true) (hval : useF = false) :
    ∀ (ch : Fin 4) (e : ChanEntry), frame.channels ch = some e →
      e.raw.isSome = true ∧ e.voltage.isSome = true := by
  unfold rowBuildOk at h
  rw [hval] at h
  simp only [Bool.false_or, List.all_eq_true] at h
  intro ch e hch
  have := h ch (List.mem_finRange ch)
  rw [hch] at this
  simpa using this

theorem oscChannelRun_nofaults {faults : SinkCall → Bool} {cfg : Config} {frame : Frame}
    {fd : Fin 4 → Option FilteredEntry} (ch : Fin 4) (m : StM)
    (hf : ∀ c, faults c = false) (hrow : rowBuildOk cfg.useFiltered frame = true) :
    ∃ m', oscChannelRun faults cfg frame fd ch m = .ok m' ∧ m'.st = m.st := by
  unfold oscChannelRun
  split
  · rcases fd ch with _ | e
    · exact ⟨m, rfl, rfl⟩
    · rw [emitCall_ok m (hf _)]
      refine ⟨⟨m.st, m.calls ++ [SinkCall.oscRaw ch] ++ [SinkCall.oscVoltage ch]⟩, ?_, rfl⟩
      rw [show ((Except.ok (⟨m.st, m.calls ++ [SinkCall.oscRaw ch]⟩ : StM) : Except StM StM)
        >>= fun m' => emitCall faults (SinkCall.oscVoltage ch) m') =
        emitCall faults (SinkCall.oscVoltage ch) ⟨m.st, m.calls ++ [SinkCall.oscRaw ch]⟩
        from rfl]
      rw [emitCall_ok _ (hf _)]
  · rcases hfr : frame.channels ch with _ | e
    · exact ⟨m, rfl, rfl⟩
    · rename_i hnf
      have hkeys := rowBuildOk_keys hrow (by simpa using hnf) ch e hfr
      obtain ⟨eraw, evolt⟩ := e
      rcases eraw with _ | rv
      · simp at hkeys
      · rcases evolt with _ | vv
        · simp at hkeys
        · rw [emitCall_ok m (hf _)]
          refine ⟨⟨m.st, m.calls ++ [SinkCall.oscRaw ch] ++ [SinkCall.oscVoltage ch]⟩, ?_, rfl⟩
          show emitCall faults (SinkCall.oscVoltage ch)
            ⟨m.st, m.calls ++ [SinkCall.oscRaw ch]⟩ =
            Except.ok ⟨m.st, m.calls ++ [SinkCall.oscRaw ch] ++ [SinkCall.oscVoltage ch]⟩
          rw [emitCall_ok _ (hf _)]

theorem oscFold_nofaults {faults : SinkCall → Bool} {cfg : Config} {frame : Frame}
    {fd : Fin 4 → Option FilteredEntry}
    (hf : ∀ c, faults c = false) (hrow : rowBuildOk cfg.useFiltered frame = true) :
    ∀ (l : List (Fin 4)) (m : StM),
      ∃ m', List.foldlM (fun m ch => oscChannelRun faults cfg frame fd ch m) m l = .ok m' ∧
        m'.st = m.st := by
  intro l
  induction l with
  | nil => exact fun m => ⟨m, rfl, rfl⟩
  | cons ch rest ih =>
    intro m
    obtain ⟨m1, h1, hst1⟩ := oscChannelRun_nofaults ch m hf hrow
    obtain ⟨m', h2, hst2⟩ := ih m1
    refine ⟨m', ?_, by rw [hst2, hst1]⟩
    rw [List.foldlM_cons, h1]
    exact h2

theorem checkThresholdChannelRun_nofaults {faults : SinkCall → Bool} {cfg : Config}
    {fd : Fin 4 → Option FilteredEntry} (i : Fin 4) (m : StM)
    (hf : ∀ c, faults c = false) :
    ∃ m1, checkThresholdChannelRun faults cfg fd i m = .ok m1 ∧
      m1.st.threshold_states = Function.update m.st.threshold_states i
        (checkThresholdChannel i (cfg.chan i) (fd i) (m.st.threshold_states i)).1 ∧
      m1.st.filter_buffers = m.st.filter_buffers ∧
      m1.st.csv_row_count = m.st.csv_row_count ∧
      m1.st.sample_count = m.st.sample_count ∧
      m1.st.error_count = m.st.error_count := by
  simp only [checkThresholdChannelRun]
  rcases checkThresholdChannel_events i (cfg.chan i) (fd i) (m.st.threshold_states i) with
    hev | ⟨ev, hev⟩ <;> rw [hev]
  · exact ⟨_, rfl, rfl, rfl, rfl, rfl, rfl⟩
  · rw [List.foldlM_cons, emitCall_ok m (hf _)]
    exact ⟨_, rfl, rfl, rfl, rfl, rfl, rfl⟩

theorem threshFold_nofaults {faults : SinkCall → Bool} {cfg : Config}
    {fd : Fin 4 → Option FilteredEntry} (hf : ∀ c, faults c = false) :
    ∀ (l : List (Fin 4)), l.Nodup → ∀ m : StM,
      ∃ m', List.foldlM (fun m i => checkThresholdChannelRun faults cfg fd i m) m l
          = .ok m' ∧
        (∀ i ∈ l, m'.st.threshold_states i =
          (checkThresholdChannel i (cfg.chan i) (fd i) (m.st.threshold_states i)).1) ∧
        (∀ i, i ∉ l → m'.st.threshold_states i = m.st.threshold_states i) ∧
        m'.st.filter_buffers = m.st.filter_buffers ∧
        m'.st.csv_row_count = m.st.csv_row_count ∧
        m'.st.sample_count = m.st.sample_count ∧
        m'.st.error_count = m.st.error_count := by
  intro l
  induction l with
  | nil =>
    intro _ m
    exact ⟨m, rfl, by simp, fun i _ => rfl, rfl, rfl, rfl, rfl⟩
  | cons j rest ih =>
    intro hnd m
    obtain ⟨hj_rest, hnd_rest⟩ := List.nodup_cons.1 hnd
    obtain ⟨m1, hstep, hth1, hfb1, hrc1, hsc1, hec1⟩ :=
      @checkThresholdChannelRun_nofaults faults cfg fd j m hf
    obtain ⟨m', hfold, hin, hout, hfb, hrc, hsc, hec⟩ := ih hnd_rest m1
    refine ⟨m', ?_, ?_, ?_, by rw [hfb, hfb1], by rw [hrc, hrc1], by rw [hsc, hsc1],
      by rw [hec, hec1]⟩
    · rw [List.foldlM_cons, hstep]
      exact hfold
    · intro i hi
      rcases List.mem_cons.1 hi with rfl | him

      · rw [hout i hj_rest, hth1]
        simp [Function.update_same]
      · have hij : i ≠ j := fun h => hj_rest (h ▸ him)
        rw [hin i him, hth1]
        simp [Function.update_noteq hij]
    · intro i hi
      have hij : i ≠ j := fun h => hi (h ▸ List.mem_cons_self j rest)
      have hir : i ∉ rest := fun h => hi (List.mem_cons_of_mem j h)
      rw [hout i hir, hth1]
      simp [Function.update_noteq hij]

theorem streamingRun_nofaults {cfg : Config} {faults : SinkCall → Bool} {frame : Frame}
    {fd : Fin 4 → Option FilteredEntry} (m : StM)
    (hstream : cfg.streamingActive = true) (hf : ∀ c, faults c = false)
    (hrow : rowBuildOk cfg.useFiltered frame = true) :
    ∃ m', streamingRun cfg faults frame fd m = .ok m' ∧
      (∀ i, m'.st.threshold_states i =
        (checkThresholdChannel i (cfg.chan i) (fd i) (m.st.threshold_states i)).1) ∧
      m'.st.filter_buffers = m.st.filter_buffers ∧
      m'.st.csv_row_count = m.st.csv_row_count ∧
      m'.st.sample_count = m.st.sample_count ∧
      m'.st.error_count = m.st.error_count := by
  unfold streamingRun
  rw [if_pos hstream]
  obtain ⟨mo, ho, hosty⟩ := oscFold_nofaults hf hrow (List.finRange 4) m
  obtain ⟨mt, ht, htin, -, htfb, htrc, htsc, htec⟩ :=
    threshFold_nofaults hf (List.finRange 4) (List.nodup_finRange 4) mo
  refine ⟨mt, ?_, ?_, by rw [htfb, hosty], by rw [htrc, hosty], by rw [htsc, hosty],
    by rw [htec, hosty]⟩
  · rw [ho]
    exact ht
  · intro i
    rw [htin i (List.mem_finRange i), hosty]

theorem process_data_buffers (cfg : Config) (faults : SinkCall → Bool) (frame : Frame)
    (s : AcqState) :
    (process_data cfg faults frame s).st.filter_buffers =
      (apply_filters cfg frame s.filter_buffers).2 := by
  obtain ⟨m', Hout, hst, -⟩ := process_data_outcome cfg faults frame s
  rw [hst]
  rcases processBody_outcome Hout with H1 | ⟨m1, hm1, H2⟩
  · rw [(emitCall_outcome (Or.inr H1)).1]
  · have h1 := (emitCall_outcome (Or.inl hm1)).1
    rcases H2 with H2e | ⟨m2, hm2, H3⟩
    · rw [(loggingRun_outcome (Or.inr H2e)).2.1, h1]
    · have h2 := (loggingRun_outcome (Or.inl hm2)).2.1
      rcases H3 with H3e | ⟨m3, hm3, hfin⟩
      · rw [(streamingRun_streamRel (Or.inr H3e)).2.1, h2, h1]
      · rw [hfin]
        show m3.st.filter_buffers = _
        rw [(streamingRun_streamRel (Or.inl hm3)).2.1, h2, h1]

theorem process_data_thresh_off (cfg : Config) (faults : SinkCall → Bool) (frame : Frame)
    (s : AcqState) (hs : cfg.streamingActive = false) :
    (process_data cfg faults frame s).st.threshold_states = s.threshold_states := by
  obtain ⟨m', Hout, hst, -⟩ := process_data_outcome cfg faults frame s
  rw [hst]
  rcases processBody_outcome Hout with H1 | ⟨m1, hm1, H2⟩
  · rw [(emitCall_outcome (Or.inr H1)).1]
  · have h1 := (emitCall_outcome (Or.inl hm1)).1
    rcases H2 with H2e | ⟨m2, hm2, H3⟩
    · rw [(loggingRun_outcome (Or.inr H2e)).1, h1]
    · have h2 := (loggingRun_outcome (Or.inl hm2)).1
      rcases H3 with H3e | ⟨m3, hm3, hfin⟩
      · rw [streamingRun_off m2 hs] at H3e
        cases H3e
      · rw [streamingRun_off m2 hs] at hm3
        injection hm3 with hm3
        rw [hfin, ← hm3]
        show m2.st.threshold_states = _
        rw [h2, h1]

theorem process_data_thresh_nofaults (cfg : Config) (faults : SinkCall → Bool)
    (frame : Frame) (s : AcqState) (hs : cfg.streamingActive = true)
    (hf : ∀ c, faults c = false) (hrow : rowBuildOk cfg.useFiltered frame = true) :
    ∀ i, (process_data cfg faults frame s).st.threshold_states i =
      (checkThresholdChannel i (cfg.chan i)
        ((apply_filters cfg frame s.filter_buffers).1 i) (s.threshold_states i)).1 := by
  obtain ⟨m', Hout, hst, -⟩ := process_data_outcome cfg faults frame s
  intro i
  rw [hst]
  rcases processBody_outcome Hout with H1 | ⟨m1, hm1, H2⟩
  · rw [emitCall_ok _ (hf _)] at H1
    cases H1
  · have h1 := (emitCall_outcome (Or.inl hm1)).1
    have hlog : ∃ m2', loggingRun cfg faults frame m1 = .ok m2' := by
      by_cases hl : cfg.loggingActive = true
      · exact ⟨_, loggingRun_ok m1 hl hrow (hf _)⟩
      · exact ⟨m1, loggingRun_off m1 (by simpa using hl)⟩
    obtain ⟨m2', hm2'⟩ := hlog
    rcases H2 with H2e | ⟨m2, hm2, H3⟩
    · rw [hm2'] at H2e
      cases H2e
    · have h2 := (loggingRun_outcome (Or.inl hm2)).1
      obtain ⟨mt, hmt, hti, -, -, -, -⟩ :=
        @streamingRun_nofaults cfg faults frame (apply_filters cfg frame s.filter_buffers).1
          m2 hs hf hrow
      rcases H3 with H3e | ⟨m3, hm3, hfin⟩
      · rw [hmt] at H3e
        cases H3e
      · rw [hmt] at hm3
        injection hm3 with hm3
        rw [hfin, ← hm3]
        show mt.st.threshold_states i = _
        rw [hti i, h2, h1]

/-- C2 counterexample: the same frame processed from the same state stores no
classification when OSC streaming is inactive (stored state stays Unset) but
stores High when streaming is active — threshold classification is
conditional on the telemetry sink's enablement, refuting the claim that it
happens on every processed sample. -/
theorem c2_counterexample :
    (process_data cfgStreamOff noFaults frameCh0 initialState).st.threshold_states 0
      = none ∧
    (process_data cfgStreamOn noFaults frameCh0 initialState).st.threshold_states 0
      = some ThreshState.high := by
  constructor <;> decide

/-- C2 (amended): for every processed sample the dispatcher invokes the
filter engine on every present channel unconditionally — the buffers are
updated before any sink call, whatever the sink flags and faults — but the
threshold engine runs only when the OSC streaming sink is active: with
streaming off the stored classifications are untouched, and with streaming
on (and no sink fault or KeyError interrupting the cycle) each channel's
stored state is updated exactly by one per-channel threshold step on the
filter output. -/
theorem c2_filter_unconditional_threshold_gated :
    ∀ (cfg : Config) (faults : SinkCall → Bool) (frame : Frame) (s : AcqState),
      (process_data cfg faults frame s).st.filter_buffers =
        (apply_filters cfg frame s.filter_buffers).2 ∧
      (cfg.streamingActive = false →
        (process_data cfg faults frame s).st.threshold_states = s.threshold_states) ∧
      (cfg.streamingActive = true → (∀ c, faults c = false) →
        rowBuildOk cfg.useFiltered frame = true →
        ∀ i, (process_data cfg faults frame s).st.threshold_states i =
          (checkThresholdChannel i (cfg.chan i)
            ((apply_filters cfg frame s.filter_buffers).1 i) (s.threshold_states i)).1) :=
  fun cfg faults frame s =>
    ⟨process_data_buffers cfg faults frame s,
     fun hs => process_data_thresh_off cfg faults frame s hs,
     fun hs hf hrow => process_data_thresh_nofaults cfg faults frame s hs hf hrow⟩

/-- C2 witness: with streaming active and no faults, processing the concrete
frame updates channel 0's stored state by the threshold step on the filter
output, and the buffers are updated unconditionally. -/
theorem c2_witness :
    (process_data cfgStreamOn noFaults frameCh0 initialState).st.filter_buffers =
      (apply_filters cfgStreamOn frameCh0 initialState.filter_buffers).2 ∧
    (process_data cfgStreamOn noFaults frameCh0 initialState).st.threshold_states 0 =
      (checkThresholdChannel 0 (cfgStreamOn.chan 0)
        ((apply_filters cfgStreamOn frameCh0 initialState.filter_buffers).1 0)
        (initialState.threshold_states 0)).1 :=
  ⟨(c2_filter_unconditional_threshold_gated cfgStreamOn noFaults frameCh0 initialState).1,
   (c2_filter_unconditional_threshold_gated cfgStreamOn noFaults frameCh0
      initialState).2.2 rfl (fun _ => rfl) (by decide) 0⟩

theorem ok_bind (a : StM) (f : StM → Except StM StM) :
    (Except.ok a : Except StM StM) >>= f = f a :=
  Eq.refl _

theorem process_data_logfault {cfg : Config} {faults : SinkCall → Bool} {frame : Frame}
    (s : AcqState) (hl : cfg.loggingActive = true)
    (hw : faults SinkCall.logWrite = true) :
    (process_data cfg faults frame s).raised = true ∧
    ∀ c ∈ (process_data cfg faults frame s).calls, c = SinkCall.displayEmit := by
  unfold process_data
  by_cases hd : faults SinkCall.displayEmit = true
  · have hbody : processBody cfg faults frame s = .error
        ⟨{ s with filter_buffers := (apply_filters cfg frame s.filter_buffers).2 }, []⟩ := by
      simp only [processBody]
      rw [emitCall_fail _ hd]
      rfl
    rw [hbody]
    exact ⟨rfl, by simp⟩
  · have hd' : faults SinkCall.displayEmit = false := by simpa using hd
    have hbody : processBody cfg faults frame s = .error
        ⟨({ s with filter_buffers := (apply_filters cfg frame s.filter_buffers).2 }
            : AcqState),
          [] ++ [SinkCall.displayEmit]⟩ := by
      simp only [processBody]
      rw [emitCall_ok _ hd', ok_bind]
      rw [loggingRun_logfault _ hl hw]
      rfl
    rw [hbody]
    refine ⟨rfl, ?_⟩
    intro c hc
    simpa using hc

/-- C4 counterexample: with logging and streaming both active, a failing log
write leaves only the display handoff performed — the telemetry sends of the
same cycle are skipped, while a fault-free run of the same cycle performs
all four sink calls.  This refutes the claim that a single sink failure does
not abort delivery to the remaining sinks of the cycle. -/
theorem c4_counterexample :
    (process_data cfgLogStream logWriteFails frameCh0 initialState).calls =
      [SinkCall.displayEmit] ∧
    (process_data cfgLogStream noFaults frameCh0 initialState).calls =
      [SinkCall.displayEmit, SinkCall.logWrite, SinkCall.oscRaw 0,
       SinkCall.oscVoltage 0] := by
  constructor <;> decide

/-- C4 (amended): a failing sink call aborts the remaining sink deliveries
of the same dispatch cycle — with logging active and a failing log write,
the cycle raises and at most the display handoff is ever performed — but it
does not stop the acquisition scheduler loop: the loop body never touches
the running flag, and the escaping exception is caught by the loop's except
clause, which increments the error counter and continues. -/
theorem c4_sink_failure_behavior :
    ∀ (cfg : Config) (faults : SinkCall → Bool) (frame : Frame) (s : AcqState)
      (interval now : ℚ) (fetch : Option Frame) (lst : LoopState),
      cfg.loggingActive = true → faults SinkCall.logWrite = true →
      ((process_data cfg faults frame s).raised = true ∧
       ∀ c ∈ (process_data cfg faults frame s).calls, c = SinkCall.displayEmit) ∧
      (data_acquisition_step interval cfg faults now fetch lst).1.running = lst.running ∧
      (¬ now < lst.next_sample_time →
        (data_acquisition_step interval cfg faults now (some frame) lst).1.acq.error_count
          = (process_data cfg faults frame lst.acq).st.error_count + 1) := by
  intro cfg faults frame s interval now fetch lst hl hw
  refine ⟨process_data_logfault s hl hw, ?_, ?_⟩
  · unfold data_acquisition_step
    split <;> rfl
  · intro hnow
    have hr := (@process_data_logfault cfg faults frame lst.acq hl hw).1
    simp [data_acquisition_step, hnow, hr]

/-- C4 witness: the concrete failing-log cycle raises, the loop keeps
running, and the loop's error counter advances by one for that cycle. -/
theorem c4_witness :
    (process_data cfgLogStream logWriteFails frameCh0 initialState).raised = true ∧
    (data_acquisition_step 1 cfgLogStream logWriteFails 5 (some frameCh0)
      ⟨0, initialState, true⟩).1.running = true ∧
    (data_acquisition_step 1 cfgLogStream logWriteFails 5 (some frameCh0)
      ⟨0, initialState, true⟩).1.acq.error_count =
      (process_data cfgLogStream logWriteFails frameCh0 initialState).st.error_count + 1 :=
  have h := c4_sink_failure_behavior cfgLogStream logWriteFails frameCh0 initialState 1 5
    (some frameCh0) ⟨0, initialState, true⟩ rfl rfl
  ⟨h.1.1, h.2.1, h.2.2 (by norm_num)⟩

theorem process_data_log_write {cfg : Config} {faults : SinkCall → Bool} {frame : Frame}
    (s : AcqState) (hl : cfg.loggingActive = true)
    (hd : faults SinkCall.displayEmit = false) (hw : faults SinkCall.logWrite = false)
    (hrow : rowBuildOk cfg.useFiltered frame = true) :
    (process_data cfg faults frame s).st.csv_row_count = s.csv_row_count + 1 ∧
    ∃ t, (process_data cfg faults frame s).calls =
      SinkCall.displayEmit :: SinkCall.logWrite :: t ∧ ∀ x ∈ t, x.isTelemetry = true := by
  obtain ⟨m', Hout, hst, hcalls⟩ := process_data_outcome cfg faults frame s
  rcases processBody_outcome Hout with H1 | ⟨m1, hm1, H2⟩
  · rw [emitCall_ok _ hd] at H1
    cases H1
  · rw [emitCall_ok _ hd] at hm1
    injection hm1 with hm1
    rcases H2 with H2e | ⟨m2, hm2, H3⟩
    · rw [loggingRun_ok m1 hl hrow hw] at H2e
      cases H2e
    · rw [loggingRun_ok m1 hl hrow hw] at hm2
      injection hm2 with hm2
      have hm2rc : m2.st.csv_row_count = s.csv_row_count + 1 := by
        rw [← hm2, ← hm1]
      have hm2calls : m2.calls = [SinkCall.displayEmit, SinkCall.logWrite] := by
        rw [← hm2, ← hm1]
        rfl
      rcases H3 with H3e | ⟨m3, hm3, hfin⟩
      · have hrel := streamingRun_streamRel (Or.inr H3e)
        constructor
        · rw [hst, hrel.1, hm2rc]
        · obtain ⟨t, ht, htel⟩ := hrel.2.2.2.2
          exact ⟨t, by rw [hcalls, ht, hm2calls]; rfl, htel⟩
      · have hrel := streamingRun_streamRel (Or.inl hm3)
        constructor
        · rw [hst, hfin]
          show m3.st.csv_row_count = _
          rw [hrel.1, hm2rc]
        · obtain ⟨t, ht, htel⟩ := hrel.2.2.2.2
          refine ⟨t, ?_, htel⟩
          rw [hcalls, hfin]
          show m3.calls = _
          rw [ht, hm2calls]
          rfl

theorem processSamples_rowcount :
    ∀ (frames : List Frame) (cfg : Config) (faults : ℕ → SinkCall → Bool) (s : AcqState),
      cfg.loggingActive = true →
      (∀ n, faults n SinkCall.displayEmit = false ∧ faults n SinkCall.logWrite = false) →
      (∀ f ∈ frames, rowBuildOk cfg.useFiltered f = true) →
      (processSamples cfg faults frames s).csv_row_count =
        s.csv_row_count + frames.length := by
  intro frames
  induction frames with
  | nil =>
    intro cfg faults s _ _ _
    simp [processSamples]
  | cons f rest ih =>
    intro cfg faults s hl hf hrow
    have hcycle := (@process_data_log_write cfg (faults 0) f s hl
      (hf 0).1 (hf 0).2 (hrow f (by simp))).1
    show (processSamples cfg (fun n => faults (n + 1)) rest
      (process_data cfg (faults 0) f s).st).csv_row_count = _
    rw [ih cfg (fun n => faults (n + 1)) _ hl (fun n => hf (n + 1))
      (fun g hg => hrow g (by simp [hg])), hcycle]
    simp
    omega

/-- C5: within each dispatch cycle the CSV log write happens before any
telemetry send — with logging active and the display and log calls healthy,
the performed calls are exactly the display handoff, then the log write,
then only telemetry calls, whatever telemetry faults are injected — so a
telemetry failure can never prevent that sample's log write, and over any
run the logged row count equals the number of processed samples regardless
of injected telemetry faults. -/
theorem c5_log_before_telemetry :
    (∀ (cfg : Config) (faults : SinkCall → Bool) (frame : Frame) (s : AcqState),
      cfg.loggingActive = true → faults SinkCall.displayEmit = false →
      faults SinkCall.logWrite = false → rowBuildOk cfg.useFiltered frame = true →
      SinkCall.logWrite ∈ (process_data cfg faults frame s).calls ∧
      ∃ t, (process_data cfg faults frame s).calls =
        SinkCall.displayEmit :: SinkCall.logWrite :: t ∧
        ∀ x ∈ t, x.isTelemetry = true) ∧
    (∀ (frames : List Frame) (cfg : Config) (faults : ℕ → SinkCall → Bool) (s : AcqState),
      cfg.loggingActive = true →
      (∀ n, faults n SinkCall.displayEmit = false ∧ faults n SinkCall.logWrite = false) →
      (∀ f ∈ frames, rowBuildOk cfg.useFiltered f = true) →
      (processSamples cfg faults frames s).csv_row_count =
        s.csv_row_count + frames.length) := by
  constructor
  · intro cfg faults frame s hl hd hw hrow
    obtain ⟨-, t, ht, htel⟩ := process_data_log_write s hl hd hw hrow
    exact ⟨by rw [ht]; simp, t, ht, htel⟩
  · exact processSamples_rowcount

/-- C5 witness: with every telemetry call failing, the log write of the
cycle is still performed and two processed samples yield two logged rows. -/
theorem c5_witness :
    SinkCall.logWrite ∈
      (process_data cfgLogStream telemetryFaults frameCh0 initialState).calls ∧
    (processSamples cfgLogStream (fun _ => telemetryFaults) [frameCh0, frameCh0]
      initialState).csv_row_count = initialState.csv_row_count + 2 :=
  ⟨(c5_log_before_telemetry.1 cfgLogStream telemetryFaults frameCh0 initialState rfl rfl
      rfl (by decide)).1,
   c5_log_before_telemetry.2 [frameCh0, frameCh0] cfgLogStream (fun _ => telemetryFaults)
      initialState rfl (fun _ => ⟨rfl, rfl⟩)
      (fun f hf => by
        simp at hf
        subst hf
        decide)⟩

/-- C9 counterexample: with interval 1, nextTick 0 and observed time 1, the
fetch iteration advances nextTick to exactly 1 — a value that is NOT in the
future relative to the observed time 1 — yet it is not resynchronized to
now + interval = 2, because the code resynchronizes only when the advanced
deadline is STRICTLY in the past.  This refutes the claim that any advanced
nextTick not in the future is resynchronized. -/
theorem c9_counterexample :
    ¬ (1 : ℚ) <
      (data_acquisition_step 1 cfgStreamOn noFaults 1 none
        ⟨0, initialState, true⟩).1.next_sample_time ∧
    (data_acquisition_step 1 cfgStreamOn noFaults 1 none
      ⟨0, initialState, true⟩).1.next_sample_time ≠ 1 + 1 := by
  have h : (data_acquisition_step 1 cfgStreamOn noFaults 1 none
      ⟨0, initialState, true⟩).1.next_sample_time = 1 := by
    norm_num [data_acquisition_step, initialState, cfgStreamOn, noFaults]
  rw [h]
  norm_num

/-- C9 (amended): the loop sleeps (and does not fetch) whenever the observed
time is before the deadline; after each fetch attempt — success or failure —
the deadline advances by exactly one interval, and it is resynchronized to
the observed time plus one interval only when the advanced deadline is
strictly in the past; with a positive interval the resulting deadline is
never strictly in the past, so no burst of rapid catch-up fetches is ever
scheduled. -/
theorem c9_scheduler_pacing :
    ∀ (interval : ℚ) (cfg : Config) (faults : SinkCall → Bool) (now : ℚ)
      (fetch : Option Frame) (st : LoopState),
      (now < st.next_sample_time →
        data_acquisition_step interval cfg faults now fetch st =
          (st, IterOutcome.slept (st.next_sample_time - now))) ∧
      (¬ now < st.next_sample_time →
        (data_acquisition_step interval cfg faults now fetch st).2 =
          IterOutcome.fetched ∧
        (data_acquisition_step interval cfg faults now fetch st).1.next_sample_time =
          (if st.next_sample_time + interval < now then now + interval
           else st.next_sample_time + interval) ∧
        (0 < interval →
          ¬ (data_acquisition_step interval cfg faults now fetch st).1.next_sample_time
            < now)) := by
  intro interval cfg faults now fetch st
  constructor
  · intro h
    unfold data_acquisition_step
    rw [if_pos h]
  · intro h
    unfold data_acquisition_step
    rw [if_neg h]
    refine ⟨rfl, rfl, ?_⟩
    intro hpos
    show ¬ (if st.next_sample_time + interval < now then now + interval
      else st.next_sample_time + interval) < now
    by_cases hsync : st.next_sample_time + interval < now
    · rw [if_pos hsync]
      intro hlt
      linarith
    · rw [if_neg hsync]
      exact hsync

/-- C9 witness: a device far behind schedule (deadline 0, observed time 5,
interval 1) performs the fetch and resynchronizes the deadline so that it is
not in the past; an on-schedule device (observed time 3, deadline 7) sleeps
the remaining delta without fetching. -/
theorem c9_witness :
    (data_acquisition_step 1 cfgStreamOn noFaults 5 none
      ⟨0, initialState, true⟩).2 = IterOutcome.fetched ∧
    ¬ (data_acquisition_step 1 cfgStreamOn noFaults 5 none
      ⟨0, initialState, true⟩).1.next_sample_time < 5 ∧
    data_acquisition_step 1 cfgStreamOn noFaults 3 none ⟨7, initialState, true⟩ =
      (⟨7, initialState, true⟩, IterOutcome.slept (7 - 3)) :=
  ⟨((c9_scheduler_pacing 1 cfgStreamOn noFaults 5 none ⟨0, initialState, true⟩).2
      (by norm_num)).1,
   ((c9_scheduler_pacing 1 cfgStreamOn noFaults 5 none ⟨0, initialState, true⟩).2
      (by norm_num)).2.2 (by norm_num),
   (c9_scheduler_pacing 1 cfgStreamOn noFaults 3 none ⟨7, initialState, true⟩).1
      (by norm_num)⟩

end EspLog



